import Mathlib

/-!
# ExpressionKit — verification of the expression-language core and its C bridge

The repository ships a small embeddable expression language (tokenizer,
recursive-descent parser, tree-walking evaluator, a tagged `Value` type with
coercions, and a built-in math library), plus a C-ABI bridge.  The core header
`ExpressionKit.hpp` is not part of the sources available here (only its tests,
demos and the bridge are), so the core engine is modelled from the spec,
checked for consistency against the expectations recorded in
`src/CPP/test.cpp`.  The bridge (`ExpressionKitBridge.cpp` / `.h`) is embedded
directly from its source.

Machine doubles are modelled as exact rationals (an executable fraction type
`Number` with a `toRat` interpretation): every numeric literal and arithmetic
step exercised by the spec's examples is exact, so the observable behaviour on
those inputs coincides with IEEE semantics.
-/

namespace ExpressionKit

/-- Modelled from the spec (§7): the three error kinds of the engine.
`ExprException` in the missing core carries a message; the spec distinguishes
ParseError / TypeError / RuntimeError, so the model tags the message with its
kind. -/
inductive ExprError where
  | parseError (msg : String)
  | typeError (msg : String)
  | runtimeError (msg : String)
deriving Repr, DecidableEq

/-- The human-readable message carried by an error (`ExprException::what()`). -/
def ExprError.msg : ExprError → String
  | .parseError m => m
  | .typeError m => m
  | .runtimeError m => m

def ExprError.isParseErr : ExprError → Bool
  | .parseError _ => true
  | _ => false

def ExprError.isTypeErr : ExprError → Bool
  | .typeError _ => true
  | _ => false

def ExprError.isRuntimeErr : ExprError → Bool
  | .runtimeError _ => true
  | _ => false

/-- The executable stand-in for the engine's 64-bit floats: an exact (not
necessarily reduced) fraction.  Every operation keeps `den` positive; `toRat`
maps into `ℚ` for the specification-level lemmas.  (`ℚ` itself is not used as
the carrier because its kernel arithmetic does not reduce.) -/
structure Number where
  num : ℤ
  den : ℕ
deriving Repr, DecidableEq

instance : OfNat Number n :=
  ⟨⟨(n : ℤ), 1⟩⟩

/-- The rational a `Number` denotes. -/
def Number.toRat (a : Number) : ℚ :=
  (a.num : ℚ) / (a.den : ℚ)

/-- Well-formedness: the denominator is positive (maintained by every
operation of the model). -/
def Number.Wf (a : Number) : Prop :=
  0 < a.den

def Number.fromInt (n : ℤ) : Number :=
  ⟨n, 1⟩

def Number.add (a b : Number) : Number :=
  ⟨a.num * b.den + b.num * a.den, a.den * b.den⟩

def Number.neg (a : Number) : Number :=
  ⟨-a.num, a.den⟩

def Number.sub (a b : Number) : Number :=
  ⟨a.num * b.den - b.num * a.den, a.den * b.den⟩

def Number.mul (a b : Number) : Number :=
  ⟨a.num * b.num, a.den * b.den⟩

/-- Exact division, with the divisor's sign moved into the numerator so the
denominator stays positive.  (Callers test for a zero divisor first.) -/
def Number.div (a b : Number) : Number :=
  if b.num < 0 then ⟨-(a.num * b.den), a.den * b.num.natAbs⟩
  else ⟨a.num * b.den, a.den * b.num.natAbs⟩

/-- Numeric equality (IEEE `==` on exact values): cross-multiplication. -/
def Number.beq (a b : Number) : Bool :=
  a.num * b.den == b.num * a.den

/-- Numeric strict order (IEEE `<` on exact values): cross-multiplication. -/
def Number.blt (a b : Number) : Bool :=
  decide (a.num * b.den < b.num * a.den)

/-- Numeric non-strict order. -/
def Number.ble (a b : Number) : Bool :=
  decide (a.num * b.den ≤ b.num * a.den)

def Number.isZero (a : Number) : Bool :=
  a.num == 0

/-- Truncation toward zero (the rounding C's `fmod` uses). -/
def Number.trunc (a : Number) : ℤ :=
  a.num.tdiv a.den

/-- Floor. -/
def Number.floor (a : Number) : ℤ :=
  a.num.fdiv a.den

/-- Ceiling. -/
def Number.ceil (a : Number) : ℤ :=
  -((-a.num).fdiv a.den)

/-- Rounding half away from zero (C `round`). -/
def Number.round (a : Number) : ℤ :=
  let r : ℕ := (2 * a.num.natAbs + a.den) / (2 * a.den)
  if a.num < 0 then -(r : ℤ) else (r : ℤ)

def Number.abs (a : Number) : Number :=
  ⟨|a.num|, a.den⟩

def Number.bmin (a b : Number) : Number :=
  if a.ble b then a else b

def Number.bmax (a b : Number) : Number :=
  if a.ble b then b else a

/-- Floating remainder, C `fmod` style: `a - trunc(a / b) * b`. -/
def Number.fmod (a b : Number) : Number :=
  a.sub (b.mul (Number.fromInt ((a.div b).trunc)))

/-- Raising to a natural power. -/
def Number.npow (a : Number) (k : ℕ) : Number :=
  ⟨a.num ^ k, a.den ^ k⟩

/-- Exact reciprocal, sign moved into the numerator. -/
def Number.inv (a : Number) : Number :=
  if a.num < 0 then ⟨-(a.den : ℤ), a.num.natAbs⟩ else ⟨(a.den : ℤ), a.num.natAbs⟩

/-- Whether the denoted value is an integer, and if so which one. -/
def Number.asInt (a : Number) : Option ℤ :=
  if a.num.emod a.den == 0 then some (a.num.ediv a.den) else none

/-- Square root: exact on perfect squares (`Int.sqrt` of the scaled
numerator); the spec does not pin the value elsewhere. -/
def Number.sqrtApprox (a : Number) : Number :=
  ⟨Int.sqrt (a.num * a.den), a.den⟩

/-- Modelled from the spec (§3): the tagged value type — Number (64-bit float,
modelled as an exact fraction), Boolean, String. -/
inductive Value where
  | num (n : Number)
  | bool (b : Bool)
  | str (s : String)
deriving Repr, DecidableEq

def Value.isNumber : Value → Bool
  | .num _ => true
  | _ => false

def Value.isBoolean : Value → Bool
  | .bool _ => true
  | _ => false

def Value.isString : Value → Bool
  | .str _ => true
  | _ => false

/-- The active tag of a value. -/
inductive ValueTag where
  | number
  | boolean
  | stringTag
deriving Repr, DecidableEq

def Value.tag : Value → ValueTag
  | .num _ => .number
  | .bool _ => .boolean
  | .str _ => .stringTag

/-- Digits to the natural number they denote (most significant first). -/
def digitsToNat (ds : List Char) : Nat :=
  ds.foldl (fun acc c => 10 * acc + (c.toNat - 48)) 0

/-- Modelled from the spec (§3, String → Number): the whole string must be a
complete decimal numeral — optional sign, digits, optional fraction; anything
else (including the empty string) is rejected. -/
def parseDecimal (s : String) : Option Number :=
  let cs := s.data
  let signed : Bool × List Char :=
    match cs with
    | '-' :: rest => (true, rest)
    | '+' :: rest => (false, rest)
    | _ => (false, cs)
  let neg := signed.1
  let cs1 := signed.2
  let intDs := cs1.takeWhile Char.isDigit
  let rest1 := cs1.dropWhile Char.isDigit
  if intDs = [] then none
  else
    let finish (fracDs : List Char) : Number :=
      let mag : ℤ :=
        (digitsToNat intDs : ℤ) * (10 : ℤ) ^ fracDs.length + (digitsToNat fracDs : ℤ)
      ⟨if neg then -mag else mag, 10 ^ fracDs.length⟩
    match rest1 with
    | [] => some (finish [])
    | '.' :: rest2 =>
      let fracDs := rest2.takeWhile Char.isDigit
      let rest3 := rest2.dropWhile Char.isDigit
      if fracDs = [] then none
      else if rest3 = [] then some (finish fracDs) else none
    | _ => none

/-- Left-pad a numeral with zeros to six digits (the fractional part of the
fixed-point rendering). -/
def fracSix (m : Nat) : String :=
  String.mk (List.replicate (6 - (Nat.repr m).length) '0') ++ Nat.repr m

/-- Modelled from the spec (§3, Number → String): fixed-point with six
fractional digits, e.g. `42 → "42.000000"`: the scaled magnitude
`|q| * 10^6` is rounded to the nearest integer and split into integer and
fraction digits. -/
def formatFixed6 (q : Number) : String :=
  let n : Nat := (2 * (q.num.natAbs * 1000000) + q.den) / (2 * q.den)
  (if q.num < 0 then "-" else "") ++ Nat.repr (n / 1000000) ++ "." ++ fracSix (n % 1000000)

/-- Modelled from the spec (§3, String → Boolean): a case-insensitive member of
`{"false","no","0",""}` is false; every other string is true. -/
def stringFalsy (s : String) : Bool :=
  (["false", "no", "0", ""] : List String).contains s.toLower

/-- Modelled from the spec (§3): `Value::asBoolean` — total coercion to
Boolean (`0.0` is false, any other number is true). -/
def Value.asBoolean : Value → Bool
  | .num n => !n.isZero
  | .bool b => b
  | .str s => !stringFalsy s

/-- Modelled from the spec (§3): `Value::asNumber` — coercion to Number, which
fails with a TypeError on a string that is not a complete decimal numeral. -/
def Value.asNumber : Value → Except ExprError Number
  | .num n => .ok n
  | .bool b => .ok (if b then 1 else 0)
  | .str s =>
    match parseDecimal s with
    | some q => .ok q
    | none => .error (.typeError ("Cannot convert string to number: " ++ s))

/-- Modelled from the spec (§3): `Value::asString` — total coercion to String
(numbers in fixed-point with six fractional digits, booleans literal). -/
def Value.asString : Value → String
  | .num n => formatFixed6 n
  | .bool b => if b then "true" else "false"
  | .str s => s

/-- Modelled from the spec (§3): `==` equality — values of different tags are
unequal, same-tag values compare by underlying equality (number: IEEE
equality, string: byte equality, boolean: identity). -/
def valueEq (a b : Value) : Bool :=
  match a, b with
  | .num x, .num y => x.beq y
  | .bool x, .bool y => x == y
  | .str x, .str y => x == y
  | _, _ => false

/-- Character-list lexicographic "less than", written as the character-by-
character loop `std::string::operator<` performs. -/
def charListLt : List Char → List Char → Bool
  | _, [] => false
  | [], _ :: _ => true
  | x :: xs, y :: ys =>
    if x < y then true
    else if y < x then false
    else charListLt xs ys

/-- Lexicographic string comparison (byte order; UTF-8 byte order and code
point order coincide). -/
def strLt (a b : String) : Bool :=
  charListLt a.data b.data

/-- The substring search loop behind the `in` operator (`std::string::find`):
try the needle as a prefix at every position of the haystack. -/
def substrSearch (needle : List Char) (haystack : List Char) : Bool :=
  if needle.isPrefixOf haystack then true
  else
    match haystack with
    | [] => false
    | _ :: t => substrSearch needle t

/-- Modelled from the spec (§4.3): the binary numeric power `^`.  The spec pins
its behaviour only on the integer exponents its examples use; a non-integer
exponent is modelled by the placeholder value `0`. -/
def numberPow (base expo : Number) : Number :=
  match expo.asInt with
  | some k => if 0 ≤ k then base.npow k.toNat else (base.inv).npow (-k).toNat
  | none => 0

/-- The unary operators: numeric negation and boolean negation. -/
inductive UnOp where
  | neg
  | bnot
deriving Repr, DecidableEq

/-- The binary operators of §4.1/§4.3. -/
inductive BinOp where
  | add
  | sub
  | mul
  | div
  | mod
  | pow
  | eq
  | ne
  | lt
  | le
  | gt
  | ge
  | and
  | or
  | xor
  | inOp
deriving Repr, DecidableEq

/-- Modelled from the spec (§3, AST node): immutable — NumberLiteral,
BooleanLiteral, StringLiteral, VariableRef, UnaryOp, BinaryOp, FunctionCall. -/
inductive Ast where
  | numberLit (n : Number)
  | booleanLit (b : Bool)
  | stringLit (s : String)
  | variableRef (name : String)
  | unaryOp (op : UnOp) (operand : Ast)
  | binaryOp (op : BinOp) (left right : Ast)
  | functionCall (name : String) (args : List Ast)
deriving Repr

/-- Modelled from the spec (§3, Environment): the host-supplied read-only
resolver — `Get(name)` and `Call(name, args)`, each returning a value or
failing. -/
structure IEnvironment where
  Get : String → Except ExprError Value
  Call : String → List Value → Except ExprError Value

/-- The one-argument built-ins of §4.4. -/
def oneArgNames : List String :=
  ["sqrt", "abs", "floor", "ceil", "round", "sin", "cos", "tan",
   "asin", "acos", "atan", "log", "exp"]

/-- The two-argument built-ins of §4.4. -/
def twoArgNames : List String :=
  ["min", "max", "pow"]

/-- Every name the standard function library recognizes. -/
def stdFunctionNames : List String :=
  oneArgNames ++ twoArgNames

/-- Modelled from the spec (§4.4): the one-argument built-ins.  The spec pins
the domain checks (`sqrt` of a negative and `log` of a non-positive fail with
RuntimeError) and the exact functions `abs`/`floor`/`ceil`/`round`; it does not
pin the numeric values of the transcendental functions, which are modelled by
the placeholder value `0` (`sqrt` uses `Rat.sqrt`, exact on perfect squares). -/
def stdOne (name : String) (x : Number) : Except ExprError Value :=
  match name with
  | "sqrt" =>
    if x.blt 0 then .error (.runtimeError "sqrt of negative number")
    else .ok (.num x.sqrtApprox)
  | "abs" => .ok (.num x.abs)
  | "floor" => .ok (.num (Number.fromInt x.floor))
  | "ceil" => .ok (.num (Number.fromInt x.ceil))
  | "round" => .ok (.num (Number.fromInt x.round))
  | "log" =>
    if x.ble 0 then .error (.runtimeError "log of non-positive number")
    else .ok (.num 0)
  | _ => .ok (.num 0)

/-- Modelled from the spec (§4.4): the two-argument built-ins `min`, `max`,
`pow`. -/
def stdTwo (name : String) (a b : Number) : Except ExprError Value :=
  match name with
  | "min" => .ok (.num (a.bmin b))
  | "max" => .ok (.num (a.bmax b))
  | _ => .ok (.num (numberPow a b))

/-- Extract the rationals from a list of values, refusing any argument that is
not Number-tagged (no implicit coercion at this boundary, §4.4). -/
def numArgs : List Value → Option (List Number)
  | [] => some []
  | .num n :: rest => (numArgs rest).map (fun ns => n :: ns)
  | _ => none

/-- Modelled from the spec (§4.4): `Expression::CallStandardFunctions`
(`TryCallStandard`).  The C++ signature returns a `matched` flag and writes the
result through an out-parameter, throwing on a domain violation; here `none`
is `matched = false` and `some r` is a matched call whose outcome is `r`. -/
def Expression.CallStandardFunctions (name : String) (args : List Value) :
    Option (Except ExprError Value) :=
  match numArgs args with
  | none => none
  | some nums =>
    if name ∈ oneArgNames then
      match nums with
      | [x] => some (stdOne name x)
      | _ => none
    else if name ∈ twoArgNames then
      match nums with
      | [a, b] => some (stdTwo name a b)
      | _ => none
    else none

/-- Ordering comparisons (`< <= > >=`), defined only between two numbers or two
strings; mismatched tags fail with TypeError (§4.3). -/
def compareValues (op : BinOp) (l r : Value) : Except ExprError Value :=
  match l, r with
  | .num a, .num b =>
    .ok (.bool (match op with
      | .lt => a.blt b
      | .le => a.ble b
      | .gt => b.blt a
      | .ge => b.ble a
      | _ => false))
  | .str a, .str b =>
    .ok (.bool (match op with
      | .lt => strLt a b
      | .le => !strLt b a
      | .gt => strLt b a
      | .ge => !strLt a b
      | _ => false))
  | _, _ => .error (.typeError "Cannot compare values of different types")

/-- Modelled from the spec (§4.3): the non-short-circuit binary operators,
applied to two already-evaluated operands. -/
def applyBinary (op : BinOp) (l r : Value) : Except ExprError Value :=
  match op with
  | .add =>
    if l.isString || r.isString then .ok (.str (l.asString ++ r.asString))
    else do
      let a ← l.asNumber
      let b ← r.asNumber
      .ok (.num (a.add b))
  | .sub => do
    let a ← l.asNumber
    let b ← r.asNumber
    .ok (.num (a.sub b))
  | .mul => do
    let a ← l.asNumber
    let b ← r.asNumber
    .ok (.num (a.mul b))
  | .div => do
    let a ← l.asNumber
    let b ← r.asNumber
    if b.isZero then .error (.runtimeError "Division by zero")
    else .ok (.num (a.div b))
  | .mod => do
    let a ← l.asNumber
    let b ← r.asNumber
    if b.isZero then .error (.runtimeError "Modulo by zero")
    else .ok (.num (a.fmod b))
  | .pow => do
    let a ← l.asNumber
    let b ← r.asNumber
    .ok (.num (numberPow a b))
  | .eq => .ok (.bool (valueEq l r))
  | .ne => .ok (.bool (!valueEq l r))
  | .lt => compareValues .lt l r
  | .le => compareValues .le l r
  | .gt => compareValues .gt l r
  | .ge => compareValues .ge l r
  | .and => .ok (.bool (l.asBoolean && r.asBoolean))
  | .or => .ok (.bool (l.asBoolean || r.asBoolean))
  | .xor => .ok (.bool (l.asBoolean != r.asBoolean))
  | .inOp =>
    match l, r with
    | .str a, .str b => .ok (.bool (substrSearch a.data b.data))
    | _, _ => .error (.typeError "in operator requires string operands")

mutual

/-- Modelled from the spec (§4.3): the tree-walking evaluator
(`ASTNode::evaluate`).  `&&`/`||` short-circuit on the left operand; all
other binary operators evaluate both operands and defer to `applyBinary`;
function calls evaluate their arguments eagerly left to right, consult the
standard library first and only then the environment. -/
def evaluate : Ast → Option IEnvironment → Except ExprError Value
  | .numberLit n, _ => .ok (.num n)
  | .booleanLit b, _ => .ok (.bool b)
  | .stringLit s, _ => .ok (.str s)
  | .variableRef name, env =>
    match env with
    | none => .error (.runtimeError "no environment")
    | some e => e.Get name
  | .unaryOp .neg a, env => do
    let v ← evaluate a env
    let n ← v.asNumber
    .ok (.num n.neg)
  | .unaryOp .bnot a, env => do
    let v ← evaluate a env
    .ok (.bool (!v.asBoolean))
  | .binaryOp .and l r, env => do
    let lv ← evaluate l env
    if lv.asBoolean then do
      let rv ← evaluate r env
      .ok (.bool rv.asBoolean)
    else .ok (.bool false)
  | .binaryOp .or l r, env => do
    let lv ← evaluate l env
    if lv.asBoolean then .ok (.bool true)
    else do
      let rv ← evaluate r env
      .ok (.bool rv.asBoolean)
  | .binaryOp op l r, env => do
    let lv ← evaluate l env
    let rv ← evaluate r env
    applyBinary op lv rv
  | .functionCall name args, env => do
    let vs ← evaluateArgs args env
    match Expression.CallStandardFunctions name vs with
    | some res => res
    | none =>
      match env with
      | none => .error (.runtimeError "no environment")
      | some e => e.Call name vs

/-- Left-to-right, eager evaluation of a function call's argument list. -/
def evaluateArgs : List Ast → Option IEnvironment → Except ExprError (List Value)
  | [], _ => .ok []
  | a :: rest, env => do
    let v ← evaluate a env
    let vs ← evaluateArgs rest env
    .ok (v :: vs)

end

/-- Modelled from the spec (§2, Token): the lexical token classes. -/
inductive TokenType where
  | NUMBER
  | BOOLEAN
  | STRING
  | IDENTIFIER
  | OPERATOR
  | PARENTHESIS
  | COMMA
  | WHITESPACE
  | UNKNOWN
deriving Repr, DecidableEq, BEq

/-- Modelled from the spec (§2, Token): kind, matched text, start offset and
length in the source. -/
structure Token where
  type : TokenType
  text : String
  start : Nat
  length : Nat
deriving Repr, DecidableEq, BEq

def mkTok (k : TokenType) (text : List Char) (pos : Nat) : Token :=
  ⟨k, String.mk text, pos, text.length⟩

def isIdentStart (c : Char) : Bool :=
  c.isAlpha || c = '_'

def isIdentCont (c : Char) : Bool :=
  c.isAlphanum || c = '_' || c = '.'

/-- The keyword operators of §4.1. -/
def keywordOps : List String :=
  ["and", "or", "not", "xor", "in"]

/-- Scan the body of a double-quoted string literal: return the raw consumed
characters (closing quote included) and the remainder, or `none` when the
literal is unterminated.  Escape pairs are consumed as two characters. -/
def scanStringChars (fuel : Nat) (cs : List Char) : Option (List Char × List Char) :=
  match fuel with
  | 0 => none
  | f + 1 =>
    match cs with
    | [] => none
    | '"' :: rest => some (['"'], rest)
    | '\\' :: c :: rest =>
      match scanStringChars f rest with
      | some (tok, rem) => some ('\\' :: c :: tok, rem)
      | none => none
    | c :: rest =>
      match scanStringChars f rest with
      | some (tok, rem) => some (c :: tok, rem)
      | none => none

/-- Modelled from the spec (§4.1): the tokenizer loop.  Decimal numerals,
`true`/`false`, double-quoted strings, identifiers (letters/underscore start,
alphanumeric/`.`/`_` continuation), greedy multi-character operators, keyword
operators, parentheses, comma; whitespace is emitted as tokens; anything else
becomes an Unknown token (in particular an unterminated string literal, whose
rejection the spec defers to the parser).  `fuel` only bounds the recursion;
`tokenize` supplies enough for the whole input. -/
def tokenizeAux (fuel : Nat) (cs : List Char) (pos : Nat) : List Token :=
  match fuel with
  | 0 => []
  | f + 1 =>
    match cs with
    | [] => []
    | c :: rest =>
      if c.isWhitespace then
        let ws := (c :: rest).takeWhile Char.isWhitespace
        let rem := (c :: rest).dropWhile Char.isWhitespace
        mkTok .WHITESPACE ws pos :: tokenizeAux f rem (pos + ws.length)
      else if c.isDigit then
        let ds := (c :: rest).takeWhile Char.isDigit
        let r1 := (c :: rest).dropWhile Char.isDigit
        match r1 with
        | '.' :: d :: r2 =>
          if d.isDigit then
            let fs := (d :: r2).takeWhile Char.isDigit
            let r3 := (d :: r2).dropWhile Char.isDigit
            let text := ds ++ '.' :: fs
            mkTok .NUMBER text pos :: tokenizeAux f r3 (pos + text.length)
          else
            mkTok .NUMBER ds pos :: tokenizeAux f r1 (pos + ds.length)
        | _ =>
          mkTok .NUMBER ds pos :: tokenizeAux f r1 (pos + ds.length)
      else if isIdentStart c then
        let idChars := (c :: rest).takeWhile isIdentCont
        let rem := (c :: rest).dropWhile isIdentCont
        let s := String.mk idChars
        let kind : TokenType :=
          if s = "true" || s = "false" then .BOOLEAN
          else if keywordOps.contains s then .OPERATOR
          else .IDENTIFIER
        mkTok kind idChars pos :: tokenizeAux f rem (pos + idChars.length)
      else if c = '"' then
        match scanStringChars f rest with
        | some (tok, rem) =>
          mkTok .STRING ('"' :: tok) pos :: tokenizeAux f rem (pos + 1 + tok.length)
        | none =>
          [mkTok .UNKNOWN (c :: rest) pos]
      else
        match c, rest with
        | '&', '&' :: r2 => mkTok .OPERATOR ['&', '&'] pos :: tokenizeAux f r2 (pos + 2)
        | '|', '|' :: r2 => mkTok .OPERATOR ['|', '|'] pos :: tokenizeAux f r2 (pos + 2)
        | '=', '=' :: r2 => mkTok .OPERATOR ['=', '='] pos :: tokenizeAux f r2 (pos + 2)
        | '!', '=' :: r2 => mkTok .OPERATOR ['!', '='] pos :: tokenizeAux f r2 (pos + 2)
        | '<', '=' :: r2 => mkTok .OPERATOR ['<', '='] pos :: tokenizeAux f r2 (pos + 2)
        | '>', '=' :: r2 => mkTok .OPERATOR ['>', '='] pos :: tokenizeAux f r2 (pos + 2)
        | _, _ =>
          if ['+', '-', '*', '/', '%', '^', '<', '>', '!'].contains c then
            mkTok .OPERATOR [c] pos :: tokenizeAux f rest (pos + 1)
          else if c = '(' || c = ')' then
            mkTok .PARENTHESIS [c] pos :: tokenizeAux f rest (pos + 1)
          else if c = ',' then
            mkTok .COMMA [c] pos :: tokenizeAux f rest (pos + 1)
          else
            mkTok .UNKNOWN [c] pos :: tokenizeAux f rest (pos + 1)

/-- Tokenize a whole source string. -/
def tokenize (s : String) : List Token :=
  tokenizeAux (s.length + 1) s.data 0

/-- Process the escape sequences of a string literal body: `\n,\t,\r,\\,\"`
are recognized; any other `\x` pair is preserved literally (§4.1). -/
def processEscapes : List Char → List Char
  | [] => []
  | '\\' :: c :: rest =>
    (match c with
     | 'n' => ['\n']
     | 't' => ['\t']
     | 'r' => ['\r']
     | '\\' => ['\\']
     | '"' => ['"']
     | _ => ['\\', c]) ++ processEscapes rest
  | c :: rest => c :: processEscapes rest

/-- The value denoted by a raw string token (surrounding quotes stripped,
escapes processed). -/
def stringLitValue (raw : String) : String :=
  String.mk (processEscapes (raw.data.drop 1).dropLast)

def Token.isOp (t : Token) (s : String) : Bool :=
  t.type == .OPERATOR && t.text == s

def Token.isParen (t : Token) (s : String) : Bool :=
  t.type == .PARENTHESIS && t.text == s

/-- The comparison/containment operator of a token, if any (§4.2 level 4). -/
def cmpOpOf (t : Token) : Option BinOp :=
  if t.isOp "==" then some .eq
  else if t.isOp "!=" then some .ne
  else if t.isOp "<=" then some .le
  else if t.isOp ">=" then some .ge
  else if t.isOp "<" then some .lt
  else if t.isOp ">" then some .gt
  else if t.isOp "in" then some .inOp
  else none

mutual

/-- Modelled from the spec (§4.2), level 1: `||`/`or`, left-associative. -/
def parseOrLevel (fuel : Nat) (ts : List Token) : Except ExprError (Ast × List Token) :=
  match fuel with
  | 0 => .error (.parseError "expression too complex")
  | f + 1 => do
    let (l, ts1) ← parseAndLevel f ts
    parseOrRest f l ts1

def parseOrRest (fuel : Nat) (acc : Ast) (ts : List Token) : Except ExprError (Ast × List Token) :=
  match fuel with
  | 0 => .error (.parseError "expression too complex")
  | f + 1 =>
    match ts with
    | [] => .ok (acc, [])
    | t :: rest =>
      if t.isOp "||" || t.isOp "or" then do
        let (r, ts2) ← parseAndLevel f rest
        parseOrRest f (.binaryOp .or acc r) ts2
      else .ok (acc, t :: rest)

/-- Level 2: `&&`/`and`, left-associative. -/
def parseAndLevel (fuel : Nat) (ts : List Token) : Except ExprError (Ast × List Token) :=
  match fuel with
  | 0 => .error (.parseError "expression too complex")
  | f + 1 => do
    let (l, ts1) ← parseXorLevel f ts
    parseAndRest f l ts1

def parseAndRest (fuel : Nat) (acc : Ast) (ts : List Token) : Except ExprError (Ast × List Token) :=
  match fuel with
  | 0 => .error (.parseError "expression too complex")
  | f + 1 =>
    match ts with
    | [] => .ok (acc, [])
    | t :: rest =>
      if t.isOp "&&" || t.isOp "and" then do
        let (r, ts2) ← parseXorLevel f rest
        parseAndRest f (.binaryOp .and acc r) ts2
      else .ok (acc, t :: rest)

/-- Level 3: `xor`, left-associative. -/
def parseXorLevel (fuel : Nat) (ts : List Token) : Except ExprError (Ast × List Token) :=
  match fuel with
  | 0 => .error (.parseError "expression too complex")
  | f + 1 => do
    let (l, ts1) ← parseCmpLevel f ts
    parseXorRest f l ts1

def parseXorRest (fuel : Nat) (acc : Ast) (ts : List Token) : Except ExprError (Ast × List Token) :=
  match fuel with
  | 0 => .error (.parseError "expression too complex")
  | f + 1 =>
    match ts with
    | [] => .ok (acc, [])
    | t :: rest =>
      if t.isOp "xor" then do
        let (r, ts2) ← parseCmpLevel f rest
        parseXorRest f (.binaryOp .xor acc r) ts2
      else .ok (acc, t :: rest)

/-- Level 4: equality/ordering/containment, non-chaining — at most one binary
node. -/
def parseCmpLevel (fuel : Nat) (ts : List Token) : Except ExprError (Ast × List Token) :=
  match fuel with
  | 0 => .error (.parseError "expression too complex")
  | f + 1 => do
    let (l, ts1) ← parseAddLevel f ts
    match ts1 with
    | [] => .ok (l, [])
    | t :: rest =>
      match cmpOpOf t with
      | some op => do
        let (r, ts2) ← parseAddLevel f rest
        .ok (.binaryOp op l r, ts2)
      | none => .ok (l, t :: rest)

/-- Level 5: additive `+ -`, left-associative. -/
def parseAddLevel (fuel : Nat) (ts : List Token) : Except ExprError (Ast × List Token) :=
  match fuel with
  | 0 => .error (.parseError "expression too complex")
  | f + 1 => do
    let (l, ts1) ← parseMulLevel f ts
    parseAddRest f l ts1

def parseAddRest (fuel : Nat) (acc : Ast) (ts : List Token) : Except ExprError (Ast × List Token) :=
  match fuel with
  | 0 => .error (.parseError "expression too complex")
  | f + 1 =>
    match ts with
    | [] => .ok (acc, [])
    | t :: rest =>
      if t.isOp "+" then do
        let (r, ts2) ← parseMulLevel f rest
        parseAddRest f (.binaryOp .add acc r) ts2
      else if t.isOp "-" then do
        let (r, ts2) ← parseMulLevel f rest
        parseAddRest f (.binaryOp .sub acc r) ts2
      else .ok (acc, t :: rest)

/-- Level 6: multiplicative `* / %`, left-associative. -/
def parseMulLevel (fuel : Nat) (ts : List Token) : Except ExprError (Ast × List Token) :=
  match fuel with
  | 0 => .error (.parseError "expression too complex")
  | f + 1 => do
    let (l, ts1) ← parsePowLevel f ts
    parseMulRest f l ts1

def parseMulRest (fuel : Nat) (acc : Ast) (ts : List Token) : Except ExprError (Ast × List Token) :=
  match fuel with
  | 0 => .error (.parseError "expression too complex")
  | f + 1 =>
    match ts with
    | [] => .ok (acc, [])
    | t :: rest =>
      if t.isOp "*" then do
        let (r, ts2) ← parsePowLevel f rest
        parseMulRest f (.binaryOp .mul acc r) ts2
      else if t.isOp "/" then do
        let (r, ts2) ← parsePowLevel f rest
        parseMulRest f (.binaryOp .div acc r) ts2
      else if t.isOp "%" then do
        let (r, ts2) ← parsePowLevel f rest
        parseMulRest f (.binaryOp .mod acc r) ts2
      else .ok (acc, t :: rest)

/-- Level 7: power `^`, right-associative. -/
def parsePowLevel (fuel : Nat) (ts : List Token) : Except ExprError (Ast × List Token) :=
  match fuel with
  | 0 => .error (.parseError "expression too complex")
  | f + 1 => do
    let (l, ts1) ← parseUnaryLevel f ts
    match ts1 with
    | [] => .ok (l, [])
    | t :: rest =>
      if t.isOp "^" then do
        let (r, ts2) ← parsePowLevel f rest
        .ok (.binaryOp .pow l r, ts2)
      else .ok (l, t :: rest)

/-- Level 8: prefix `!`/`not`/unary `-`, right-recursive. -/
def parseUnaryLevel (fuel : Nat) (ts : List Token) : Except ExprError (Ast × List Token) :=
  match fuel with
  | 0 => .error (.parseError "expression too complex")
  | f + 1 =>
    match ts with
    | [] => .error (.parseError "Unexpected end of expression")
    | t :: rest =>
      if t.isOp "!" || t.isOp "not" then do
        let (e, ts1) ← parseUnaryLevel f rest
        .ok (.unaryOp .bnot e, ts1)
      else if t.isOp "-" then do
        let (e, ts1) ← parseUnaryLevel f rest
        .ok (.unaryOp .neg e, ts1)
      else parsePrimary f (t :: rest)

/-- Level 9: primaries — literals, identifiers (variable references or function
calls), parenthesized sub-expressions. -/
def parsePrimary (fuel : Nat) (ts : List Token) : Except ExprError (Ast × List Token) :=
  match fuel with
  | 0 => .error (.parseError "expression too complex")
  | f + 1 =>
    match ts with
    | [] => .error (.parseError "Unexpected end of expression")
    | t :: rest =>
      match t.type with
      | .NUMBER =>
        match parseDecimal t.text with
        | some q => .ok (.numberLit q, rest)
        | none => .error (.parseError ("Invalid number literal: " ++ t.text))
      | .BOOLEAN => .ok (.booleanLit (t.text == "true"), rest)
      | .STRING =>
        if t.text.length ≥ 2 then .ok (.stringLit (stringLitValue t.text), rest)
        else .error (.parseError "Unterminated string literal")
      | .IDENTIFIER =>
        match rest with
        | [] => .ok (.variableRef t.text, [])
        | t2 :: rest2 =>
          if t2.isParen "(" then
            match rest2 with
            | [] => .error (.parseError "Unterminated function call")
            | t3 :: rest3 =>
              if t3.isParen ")" then .ok (.functionCall t.text [], rest3)
              else do
                let (args, ts2) ← parseArgs f (t3 :: rest3)
                .ok (.functionCall t.text args, ts2)
          else .ok (.variableRef t.text, t2 :: rest2)
      | .PARENTHESIS =>
        if t.text == "(" then do
          let (e, ts1) ← parseOrLevel f rest
          match ts1 with
          | [] => .error (.parseError "Expected closing parenthesis")
          | t2 :: rest2 =>
            if t2.isParen ")" then .ok (e, rest2)
            else .error (.parseError "Expected closing parenthesis")
        else .error (.parseError ("Unexpected token: " ++ t.text))
      | _ => .error (.parseError ("Unexpected token: " ++ t.text))

/-- The comma-separated argument list of a function call, consuming the closing
parenthesis. -/
def parseArgs (fuel : Nat) (ts : List Token) : Except ExprError (List Ast × List Token) :=
  match fuel with
  | 0 => .error (.parseError "expression too complex")
  | f + 1 => do
    let (a, ts1) ← parseOrLevel f ts
    match ts1 with
    | [] => .error (.parseError "Unterminated function call")
    | t :: rest =>
      if t.type == .COMMA then do
        let (args, ts2) ← parseArgs f rest
        .ok (a :: args, ts2)
      else if t.isParen ")" then .ok ([a], rest)
      else .error (.parseError "Expected comma or closing parenthesis in argument list")

end

/-- Modelled from the spec (§6): `Parse(text) → ASTRoot | ParseError` — the
tokenizer followed by the precedence-climbing parser, requiring the whole
token stream to be consumed. -/
def Expression.Parse (s : String) : Except ExprError Ast :=
  let toks := (tokenize s).filter (fun t => t.type != .WHITESPACE)
  match parseOrLevel (10 * (toks.length + 1)) toks with
  | .ok (ast, []) => .ok ast
  | .ok (_, t :: _) => .error (.parseError ("Unexpected token after expression: " ++ t.text))
  | .error e => .error e

/-- Modelled from the spec (§6): `Eval(text, Environment?)` — Parse then
Evaluate. -/
def Expression.Eval (s : String) (env : Option IEnvironment) : Except ExprError Value := do
  let ast ← Expression.Parse s
  evaluate ast env

namespace Bridge

/-- `ExprValueType` of `ExpressionKitBridge.h` (Swift bridge): Number = 0,
Boolean = 1, String = 2. -/
inductive ExprValueType where
  | number
  | boolean
  | stringType
deriving Repr, DecidableEq

/-- `ExprValue` of `ExpressionKitBridge.h`: an explicit tag, a
`union { double number; bool boolean; }` payload, and an out-of-band
`char* string` pointer.  The union is modelled with both members present;
a member the C code leaves unwritten is modelled as `0` / `false`, and the
possibly-null string pointer as an `Option`. -/
structure ExprValue where
  type : ExprValueType
  number : Number
  boolean : Bool
  string : Option String
deriving Repr, DecidableEq

/-- `ExprErrorCode` of `ExpressionKitBridge.h`. -/
inductive ExprErrorCode where
  | noError
  | parseError
  | runtimeError
  | typeError
  | environmentError
deriving Repr, DecidableEq

/-- `convertToCValue` (ExpressionKitBridge.cpp): copies the tag, then the
number payload when the value is a number and the boolean payload otherwise;
the `string` pointer is never set. -/
def convertToCValue (value : Value) : ExprValue :=
  { type :=
      match value with
      | .num _ => .number
      | .bool _ => .boolean
      | .str _ => .stringType
    number :=
      match value with
      | .num n => n
      | _ => 0
    boolean :=
      match value with
      | .bool b => b
      | _ => false
    string := none }

/-- `convertFromCValue` (ExpressionKitBridge.cpp): a number-typed C value
becomes `Value(number)`; every other type — the boolean type and the string
type alike — becomes `Value(boolean)`. -/
def convertFromCValue (cValue : ExprValue) : Value :=
  if cValue.type = .number then .num cValue.number else .bool cValue.boolean

/-- `ExprGetVariableCallback`: name → (value, error code out-parameter). -/
def GetVariableCallback : Type :=
  String → ExprValue × ExprErrorCode

/-- `ExprCallFunctionCallback`: name, argument array → (value, error code). -/
def CallFunctionCallback : Type :=
  String → List ExprValue → ExprValue × ExprErrorCode

/-- `CallbackEnvironment` (ExpressionKitBridge.cpp): wraps the C callbacks as
an `IEnvironment`.  `Get` forwards to the callback and turns a reported error
into an exception; `Call` first tries the standard functions and only then the
callback, converting the arguments through `convertToCValue` and the result
through `convertFromCValue`. -/
def CallbackEnvironment (getVariable : GetVariableCallback)
    (callFunction : CallFunctionCallback) : IEnvironment :=
  { Get := fun name =>
      let res := getVariable name
      if res.2 ≠ .noError then
        .error (.runtimeError ("Environment variable access failed: " ++ name))
      else .ok (convertFromCValue res.1)
    Call := fun name args =>
      match Expression.CallStandardFunctions name args with
      | some r => r
      | none =>
        let res := callFunction name (args.map convertToCValue)
        if res.2 ≠ .noError then
          .error (.runtimeError ("Environment function call failed: " ++ name))
        else .ok (convertFromCValue res.1) }

/-- The thread-local last-error slot (`g_lastError`, `g_lastErrorMessage`),
made explicit as a returned state. -/
structure BridgeState where
  lastError : ExprErrorCode
  lastErrorMessage : String
deriving Repr, DecidableEq

/-- The cleared error state (`clearError`). -/
def clearedState : BridgeState :=
  ⟨.noError, ""⟩

/-- The `invalidResult` value the failing evaluation entry points return. -/
def invalidResult : ExprValue :=
  { type := .number, number := 0, boolean := false, string := none }

/-- `expr_parse` (ExpressionKitBridge.cpp): a null expression string stores
`ExprErrorParseError`; a caught `ExprException` from `Parse` also stores
`ExprErrorParseError` with the exception's message; success leaves the cleared
state. -/
def expr_parse (expression : Option String) : Option Ast × BridgeState :=
  match expression with
  | none => (none, ⟨.parseError, "Expression string is null"⟩)
  | some s =>
    match Expression.Parse s with
    | .ok ast => (some ast, clearedState)
    | .error e => (none, ⟨.parseError, e.msg⟩)

/-- `expr_evaluate` (ExpressionKitBridge.cpp): a null expression string stores
`ExprErrorParseError`; every `ExprException` thrown by `Eval` — parse, type
and runtime failures alike — is caught in one handler that stores
`ExprErrorRuntimeError` with the exception's message. -/
def expr_evaluate (expression : Option String) (environment : Option IEnvironment) :
    ExprValue × BridgeState :=
  match expression with
  | none => (invalidResult, ⟨.parseError, "Expression string is null"⟩)
  | some s =>
    match Expression.Eval s environment with
    | .ok v => (convertToCValue v, clearedState)
    | .error e => (invalidResult, ⟨.runtimeError, e.msg⟩)

/-- `expr_evaluate_ast` (ExpressionKitBridge.cpp): a null AST handle stores
`ExprErrorRuntimeError`; every `ExprException` thrown by evaluation is caught
in one handler that stores `ExprErrorRuntimeError` with the exception's
message. -/
def expr_evaluate_ast (ast : Option Ast) (environment : Option IEnvironment) :
    ExprValue × BridgeState :=
  match ast with
  | none => (invalidResult, ⟨.runtimeError, "AST handle is null"⟩)
  | some a =>
    match evaluate a environment with
    | .ok v => (convertToCValue v, clearedState)
    | .error e => (invalidResult, ⟨.runtimeError, e.msg⟩)

end Bridge

/-! ## Shared helper lemmas -/

theorem exceptBind_ok {α ε β : Type} (a : α) (f : α → Except ε β) :
    (Except.ok a : Except ε α) >>= f = f a :=
  rfl

theorem exceptBind_err {α ε β : Type} (e : ε) (f : α → Except ε β) :
    (Except.error e : Except ε α) >>= f = .error e :=
  rfl

/-- An environment in which every variable lookup and every function call
fails, like `TestEnvironment` of `src/CPP/test.cpp` on names it does not
know. -/
def failingEnv : IEnvironment :=
  { Get := fun name => .error (.runtimeError ("Variable not defined: " ++ name))
    Call := fun name _ => .error (.runtimeError ("Function not defined: " ++ name)) }

/-! ## C1 — short-circuit of `&&`/`||` -/

/-- **C1.** For every expression `L && R` (or `L and R`), if the left operand
evaluates to a value that coerces to Boolean false, evaluation succeeds with
`false` for *every* right operand `R` — `R` is never evaluated, so the result
stands even when evaluating `R` would fail; symmetrically `L || R` with a
truthy left operand yields `true`.  The two closed conjuncts check the spec's
own end-to-end examples against an environment in which `undefinedVar` is
undefined (its `Get` fails). -/
theorem and_or_short_circuits :
    (∀ (l r : Ast) (env : Option IEnvironment) (v : Value),
      evaluate l env = .ok v → v.asBoolean = false →
      evaluate (.binaryOp .and l r) env = .ok (.bool false)) ∧
    (∀ (l r : Ast) (env : Option IEnvironment) (v : Value),
      evaluate l env = .ok v → v.asBoolean = true →
      evaluate (.binaryOp .or l r) env = .ok (.bool true)) ∧
    Expression.Eval "false && undefinedVar" (some failingEnv) = .ok (.bool false) ∧
    Expression.Eval "true || undefinedVar" (some failingEnv) = .ok (.bool true) := by
  refine ⟨?_, ?_, rfl, rfl⟩
  · intro l r env v h hb
    simp only [evaluate, h, exceptBind_ok, hb]
    simp
  · intro l r env v h hb
    simp only [evaluate, h, exceptBind_ok, hb]
    simp

/-- Witness for C1: the short-circuit theorems applied at the concrete inputs
`false && undefinedVar` and `true || undefinedVar` with no environment at all,
where evaluating the right operand alone would fail. -/
theorem and_or_short_circuits_witness :
    evaluate (.binaryOp .and (.booleanLit false) (.variableRef "undefinedVar")) none =
      .ok (.bool false) ∧
    evaluate (.binaryOp .or (.booleanLit true) (.variableRef "undefinedVar")) none =
      .ok (.bool true) :=
  ⟨and_or_short_circuits.1 (.booleanLit false) (.variableRef "undefinedVar") none
      (.bool false) rfl rfl,
   and_or_short_circuits.2.1 (.booleanLit true) (.variableRef "undefinedVar") none
      (.bool true) rfl rfl⟩

/-! ## C8 — operator precedence -/

/-- **C8.** Precedence holds: multiplicative binds tighter than additive,
which binds tighter than equality — `Eval("1 + 2 * 3")` is the Number 7 and
`Eval("2 + 3 * 4 == 14")` is the Boolean true, both with no environment. -/
theorem precedence_examples :
    Expression.Eval "1 + 2 * 3" none = .ok (.num 7) ∧
    Expression.Eval "2 + 3 * 4 == 14" none = .ok (.bool true) :=
  ⟨rfl, rfl⟩

/-! ## C7 — division and modulo by zero -/

/-- **C7.** Whenever binary `/` or `%` is applied with a divisor that
evaluates (after Number coercion) to zero, evaluation fails with a
RuntimeError — no infinity or NaN is produced; in particular
`Eval("1 / 0")` with no environment raises RuntimeError. -/
theorem division_by_zero_fails :
    (∀ (l r : Ast) (env : Option IEnvironment) (vl vr : Value) (nl nr : Number),
      evaluate l env = .ok vl → vl.asNumber = .ok nl →
      evaluate r env = .ok vr → vr.asNumber = .ok nr → nr.isZero = true →
      evaluate (.binaryOp .div l r) env = .error (.runtimeError "Division by zero")) ∧
    (∀ (l r : Ast) (env : Option IEnvironment) (vl vr : Value) (nl nr : Number),
      evaluate l env = .ok vl → vl.asNumber = .ok nl →
      evaluate r env = .ok vr → vr.asNumber = .ok nr → nr.isZero = true →
      evaluate (.binaryOp .mod l r) env = .error (.runtimeError "Modulo by zero")) ∧
    Expression.Eval "1 / 0" none = .error (.runtimeError "Division by zero") := by
  refine ⟨?_, ?_, rfl⟩
  · intro l r env vl vr nl nr hl hln hr hrn hz
    simp only [evaluate, hl, hr, exceptBind_ok, applyBinary, hln, hrn, hz]
    simp
  · intro l r env vl vr nl nr hl hln hr hrn hz
    simp only [evaluate, hl, hr, exceptBind_ok, applyBinary, hln, hrn, hz]
    simp

/-- Witness for C7: the divisor-zero theorems applied at `1 / 0` and `1 % 0`
as ASTs. -/
theorem division_by_zero_fails_witness :
    evaluate (.binaryOp .div (.numberLit 1) (.numberLit 0)) none =
      .error (.runtimeError "Division by zero") ∧
    evaluate (.binaryOp .mod (.numberLit 1) (.numberLit 0)) none =
      .error (.runtimeError "Modulo by zero") :=
  ⟨division_by_zero_fails.1 (.numberLit 1) (.numberLit 0) none (.num 1) (.num 0) 1 0
      rfl rfl rfl rfl rfl,
   division_by_zero_fails.2.1 (.numberLit 1) (.numberLit 0) none (.num 1) (.num 0) 1 0
      rfl rfl rfl rfl rfl⟩

/-! ## C2 — function-call dispatch -/

/-- If every argument before `a` evaluates successfully and `a` fails, the
whole eagerly-evaluated argument list fails with `a`'s error, whatever
arguments follow. -/
theorem evaluateArgs_append_error (pre : List Ast) (a : Ast) (post : List Ast)
    (env : Option IEnvironment) (vs : List Value) (e : ExprError)
    (hpre : evaluateArgs pre env = .ok vs) (ha : evaluate a env = .error e) :
    evaluateArgs (pre ++ a :: post) env = .error e := by
  induction pre generalizing vs with
  | nil =>
    simp only [List.nil_append, evaluateArgs, ha, exceptBind_err]
  | cons p ps ih =>
    simp only [evaluateArgs] at hpre
    cases hp : evaluate p env with
    | error ep => rw [hp] at hpre; simp [exceptBind_err] at hpre
    | ok v =>
      rw [hp] at hpre
      cases hps : evaluateArgs ps env with
      | error eps => rw [hps] at hpre; simp [exceptBind_ok, exceptBind_err] at hpre
      | ok vs1 =>
        simp only [List.cons_append, evaluateArgs, hp, exceptBind_ok, List.append_eq]
        rw [ih vs1 hps, exceptBind_err]

/-- **C2.** Function-call nodes evaluate their arguments eagerly, left to
right, before dispatch: a failing argument aborts the call with that failure
once the arguments before it succeeded (whatever follows it).  Dispatch then
consults the standard function library first — a matched call never touches
the environment — and only an unmatched call is forwarded to
`Environment.Call` with the evaluated arguments, failing with
RuntimeError("no environment") when no environment is present. -/
theorem function_call_dispatch :
    (∀ (name : String) (pre : List Ast) (a : Ast) (post : List Ast)
       (env : Option IEnvironment) (vs : List Value) (e : ExprError),
      evaluateArgs pre env = .ok vs → evaluate a env = .error e →
      evaluate (.functionCall name (pre ++ a :: post)) env = .error e) ∧
    (∀ (name : String) (args : List Ast) (env : Option IEnvironment)
       (vs : List Value) (r : Except ExprError Value),
      evaluateArgs args env = .ok vs →
      Expression.CallStandardFunctions name vs = some r →
      evaluate (.functionCall name args) env = r) ∧
    (∀ (name : String) (args : List Ast) (vs : List Value),
      evaluateArgs args none = .ok vs →
      Expression.CallStandardFunctions name vs = none →
      evaluate (.functionCall name args) none = .error (.runtimeError "no environment")) ∧
    (∀ (name : String) (args : List Ast) (env : IEnvironment) (vs : List Value),
      evaluateArgs args (some env) = .ok vs →
      Expression.CallStandardFunctions name vs = none →
      evaluate (.functionCall name args) (some env) = env.Call name vs) := by
  refine ⟨?_, ?_, ?_, ?_⟩
  · intro name pre a post env vs e hpre ha
    simp only [evaluate, evaluateArgs_append_error pre a post env vs e hpre ha,
      exceptBind_err]
  · intro name args env vs r hargs hstd
    simp only [evaluate, hargs, exceptBind_ok, hstd]
  · intro name args vs hargs hstd
    simp only [evaluate, hargs, exceptBind_ok, hstd]
  · intro name args env vs hargs hstd
    simp only [evaluate, hargs, exceptBind_ok, hstd]

/-- Witness for C2, at concrete inputs: a failing second argument (an
undefined variable with no environment) aborts `f(1, x)`; `min(10, 5)`
matches the standard library and returns 5 without an environment being
consulted; the unknown `f(1)` with no environment fails with
RuntimeError("no environment"); and the unknown `f(1)` with `failingEnv`
is forwarded to `failingEnv.Call`. -/
theorem function_call_dispatch_witness :
    evaluate (.functionCall "f" ([.numberLit 1] ++ .variableRef "x" :: [])) none =
      .error (.runtimeError "no environment") ∧
    evaluate (.functionCall "min" [.numberLit 10, .numberLit 5]) none =
      .ok (.num ⟨5, 1⟩) ∧
    evaluate (.functionCall "f" [.numberLit 1]) none =
      .error (.runtimeError "no environment") ∧
    evaluate (.functionCall "f" [.numberLit 1]) (some failingEnv) =
      failingEnv.Call "f" [.num 1] :=
  ⟨function_call_dispatch.1 "f" [.numberLit 1] (.variableRef "x") [] none
      [.num 1] (.runtimeError "no environment") rfl rfl,
   function_call_dispatch.2.1 "min" [.numberLit 10, .numberLit 5] none
      [.num 10, .num 5] (.ok (.num ⟨5, 1⟩)) rfl rfl,
   function_call_dispatch.2.2.1 "f" [.numberLit 1] [.num 1] rfl rfl,
   function_call_dispatch.2.2.2 "f" [.numberLit 1] failingEnv [.num 1] rfl rfl⟩

/-! ## C3 — equality across tags, ordering within tags -/

/-- The cross-multiplication comparison `Number.blt` is exactly `<` on the
denoted rationals. -/
theorem Number.blt_eq_toRat (a b : Number) (ha : a.Wf) (hb : b.Wf) :
    a.blt b = decide (a.toRat < b.toRat) := by
  unfold Number.blt Number.toRat
  rw [decide_eq_decide]
  rw [div_lt_div_iff₀ (by exact_mod_cast ha) (by exact_mod_cast hb)]
  exact_mod_cast Iff.rfl

/-- The cross-multiplication comparison `Number.ble` is exactly `≤` on the
denoted rationals. -/
theorem Number.ble_eq_toRat (a b : Number) (ha : a.Wf) (hb : b.Wf) :
    a.ble b = decide (a.toRat ≤ b.toRat) := by
  unfold Number.ble Number.toRat
  rw [decide_eq_decide]
  rw [div_le_div_iff₀ (by exact_mod_cast ha) (by exact_mod_cast hb)]
  exact_mod_cast Iff.rfl

/-- The character-by-character loop `charListLt` decides lexicographic order
(code-point order, which for UTF-8 text coincides with byte order). -/
theorem charListLt_iff_lex (a b : List Char) :
    charListLt a b = true ↔ List.Lex (· < ·) a b := by
  induction a generalizing b with
  | nil =>
    cases b with
    | nil =>
      simp only [charListLt, Bool.false_eq_true, false_iff]
      exact List.Lex.not_nil_right _ _
    | cons y ys =>
      simp only [charListLt, true_iff]
      exact List.Lex.nil
  | cons x xs ih =>
    cases b with
    | nil =>
      simp only [charListLt, Bool.false_eq_true, false_iff]
      exact List.Lex.not_nil_right _ _
    | cons y ys =>
      simp only [charListLt]
      by_cases hxy : x < y
      · simp only [if_pos hxy, true_iff]
        exact List.Lex.rel hxy
      · by_cases hyx : y < x
        · simp only [if_neg hxy, if_pos hyx, Bool.false_eq_true, false_iff]
          intro h
          cases h with
          | rel h1 => exact hxy h1
          | cons h1 => exact lt_irrefl x hyx
        · have hxy2 : x = y := le_antisymm (not_lt.mp hyx) (not_lt.mp hxy)
          subst hxy2
          simp only [if_neg hxy, if_neg hyx]
          rw [List.Lex.cons_iff]
          exact ih ys

/-- **C3.** Values of different tags: `==` is false and `!=` is true without
failing, while each ordering operator fails with TypeError.  Values of the
same tag: ordering compares numbers numerically (IEEE comparison on the exact
values, via `toRat`) and strings lexicographically by byte order.  The closed
conjuncts check the spec's examples: `Eval("\"hello\" > 42")` raises TypeError
and `Eval("\"hello\" == 42")` returns false. -/
theorem comparison_semantics :
    (∀ (v w : Value), v.tag ≠ w.tag →
      applyBinary .eq v w = .ok (.bool false) ∧
      applyBinary .ne v w = .ok (.bool true)) ∧
    (∀ (v w : Value) (op : BinOp),
      (op = .lt ∨ op = .le ∨ op = .gt ∨ op = .ge) → v.tag ≠ w.tag →
      applyBinary op v w = .error (.typeError "Cannot compare values of different types")) ∧
    (∀ (a b : Number), a.Wf → b.Wf →
      applyBinary .lt (.num a) (.num b) = .ok (.bool (decide (a.toRat < b.toRat))) ∧
      applyBinary .le (.num a) (.num b) = .ok (.bool (decide (a.toRat ≤ b.toRat))) ∧
      applyBinary .gt (.num a) (.num b) = .ok (.bool (decide (b.toRat < a.toRat))) ∧
      applyBinary .ge (.num a) (.num b) = .ok (.bool (decide (b.toRat ≤ a.toRat)))) ∧
    (∀ (s t : String),
      applyBinary .lt (.str s) (.str t) = .ok (.bool (strLt s t)) ∧
      (strLt s t = true ↔ List.Lex (· < ·) s.data t.data)) ∧
    Expression.Eval "\"hello\" > 42" none =
      .error (.typeError "Cannot compare values of different types") ∧
    Expression.Eval "\"hello\" == 42" none = .ok (.bool false) := by
  refine ⟨?_, ?_, ?_, ?_, rfl, rfl⟩
  · intro v w h
    cases v <;> cases w <;> simp [Value.tag] at h <;>
      simp [applyBinary, valueEq]
  · intro v w op hop h
    have hcmp : applyBinary op v w = compareValues op v w := by
      rcases hop with rfl | rfl | rfl | rfl <;> rfl
    rw [hcmp]
    cases v <;> cases w <;> simp [Value.tag] at h <;> rfl
  · intro a b ha hb
    refine ⟨?_, ?_, ?_, ?_⟩ <;>
      simp [applyBinary, compareValues, Number.blt_eq_toRat, Number.ble_eq_toRat, ha, hb]
  · intro s t
    exact ⟨rfl, charListLt_iff_lex s.data t.data⟩

/-- Witness for C3: the theorem's universal parts applied to concrete values —
`"hello"` against `42` for the cross-tag parts, `1 < 2` for the numeric
ordering, `"apple" < "banana"` for the string ordering. -/
theorem comparison_semantics_witness :
    applyBinary .eq (.str "hello") (.num 42) = .ok (.bool false) ∧
    applyBinary .gt (.str "hello") (.num 42) =
      .error (.typeError "Cannot compare values of different types") ∧
    applyBinary .lt (.num 1) (.num 2) =
      .ok (.bool (decide ((1 : Number).toRat < (2 : Number).toRat))) ∧
    applyBinary .lt (.str "apple") (.str "banana") = .ok (.bool (strLt "apple" "banana")) :=
  ⟨(comparison_semantics.1 (.str "hello") (.num 42) (by simp [Value.tag])).1,
   comparison_semantics.2.1 (.str "hello") (.num 42) .gt (by simp) (by simp [Value.tag]),
   (comparison_semantics.2.2.1 1 2 (by exact Nat.zero_lt_one) (by exact Nat.zero_lt_one)).1,
   (comparison_semantics.2.2.2.1 "apple" "banana").1⟩

/-! ## C4 — the `in` containment operator -/

/-- The position-by-position search loop decides contiguous-substring
containment (`List.IsInfix`). -/
theorem substrSearch_iff_infix (needle haystack : List Char) :
    substrSearch needle haystack = true ↔ needle <:+: haystack := by
  induction haystack with
  | nil =>
    rw [substrSearch]
    by_cases hp : needle.isPrefixOf []
    · simp only [if_pos hp, true_iff]
      exact (List.isPrefixOf_iff_prefix.mp hp).isInfix
    · simp only [if_neg hp, Bool.false_eq_true, false_iff, List.infix_nil]
      intro h
      subst h
      exact hp (List.isPrefixOf_iff_prefix.mpr (List.nil_prefix))
  | cons c t ih =>
    rw [substrSearch]
    by_cases hp : needle.isPrefixOf (c :: t)
    · simp only [if_pos hp, true_iff]
      exact (List.isPrefixOf_iff_prefix.mp hp).isInfix
    · simp only [if_neg hp, ih, List.infix_cons_iff]
      constructor
      · exact Or.inr
      · rintro (h | h)
        · exact absurd (List.isPrefixOf_iff_prefix.mpr h) hp
        · exact h

/-- **C4.** `l in r` fails with TypeError whenever either operand is not a
String (numbers and booleans are not coerced); on two strings it returns true
iff the left string is a contiguous (possibly empty) substring of the right
string — so the empty string is contained in every string and no non-empty
string is contained in the empty string.  The closed conjuncts are the spec's
examples. -/
theorem in_operator_semantics :
    (∀ (v w : Value), v.isString = false ∨ w.isString = false →
      applyBinary .inOp v w = .error (.typeError "in operator requires string operands")) ∧
    (∀ (s t : String),
      applyBinary .inOp (.str s) (.str t) = .ok (.bool (substrSearch s.data t.data)) ∧
      (substrSearch s.data t.data = true ↔ s.data <:+: t.data)) ∧
    (∀ (t : String), applyBinary .inOp (.str "") (.str t) = .ok (.bool true)) ∧
    (∀ (s : String), s ≠ "" →
      applyBinary .inOp (.str s) (.str "") = .ok (.bool false)) ∧
    Expression.Eval "\"\" in \"anything\"" none = .ok (.bool true) ∧
    Expression.Eval "\"x\" in \"\"" none = .ok (.bool false) ∧
    Expression.Eval "5 in \"hello\"" none =
      .error (.typeError "in operator requires string operands") ∧
    Expression.Eval "true in \"hello\"" none =
      .error (.typeError "in operator requires string operands") := by
  refine ⟨?_, ?_, ?_, ?_, rfl, rfl, rfl, rfl⟩
  · intro v w h
    cases v <;> cases w <;> simp [Value.isString] at h <;> rfl
  · intro s t
    exact ⟨rfl, substrSearch_iff_infix s.data t.data⟩
  · intro t
    simp only [applyBinary]
    rw [substrSearch.eq_def]
    simp [List.isPrefixOf]
  · intro s h
    have hd : s.data ≠ [] := fun hnil => h (by
      cases s with
      | mk data => simp at hnil; simp [hnil])
    simp only [applyBinary]
    rw [substrSearch.eq_def]
    cases hs : s.data with
    | nil => exact absurd hs hd
    | cons c cs =>
      simp [List.isPrefixOf]

/-- Witness for C4: the theorem's universal parts applied at `5 in "hello"`,
`"abc" in "I can sing my abc"`, `"" in "hello world"` and `"x" in ""`. -/
theorem in_operator_semantics_witness :
    applyBinary .inOp (.num 5) (.str "hello") =
      .error (.typeError "in operator requires string operands") ∧
    applyBinary .inOp (.str "abc") (.str "I can sing my abc") =
      .ok (.bool (substrSearch "abc".data "I can sing my abc".data)) ∧
    applyBinary .inOp (.str "") (.str "hello world") = .ok (.bool true) ∧
    applyBinary .inOp (.str "x") (.str "") = .ok (.bool false) :=
  ⟨in_operator_semantics.1 (.num 5) (.str "hello") (Or.inl rfl),
   (in_operator_semantics.2.1 "abc" "I can sing my abc").1,
   in_operator_semantics.2.2.1 "hello world",
   in_operator_semantics.2.2.2.1 "x" (by decide)⟩

/-! ## C5 — `+` as concatenation when a string is involved -/

/-- An integer Number renders in fixed-point with six zero fraction digits:
`n → "n.000000"`. -/
theorem asString_natCast_format (n : ℕ) :
    Value.asString (.num (Number.fromInt (n : ℤ))) = Nat.repr n ++ ".000000" := by
  show formatFixed6 ⟨(n : ℤ), 1⟩ = Nat.repr n ++ ".000000"
  unfold formatFixed6
  have h1 : (2 * ((n : ℤ).natAbs * 1000000) + 1) / (2 * 1) = n * 1000000 := by
    simp only [Int.natAbs_ofNat]
    omega
  have h2 : ¬((n : ℤ) < 0) := by omega
  rw [if_neg h2]
  simp only [h1]
  have h3 : n * 1000000 / 1000000 = n := by omega
  have h4 : n * 1000000 % 1000000 = 0 := by omega
  rw [h3, h4]
  show ("" : String) ++ Nat.repr n ++ "." ++ fracSix 0 = Nat.repr n ++ ".000000"
  have h5 : fracSix 0 = "000000" := rfl
  have h6 : ("" : String) ++ Nat.repr n = Nat.repr n := rfl
  rw [h5, h6, String.append_assoc]
  rfl

/-- **C5.** Binary `+` with at least one String operand concatenates both
operands' String-coerced forms — an integer Number `n` formats as
`"n.000000"` (so `42` becomes `"42.000000"`) and a Boolean as
`"true"`/`"false"` — while `+` on two non-String operands coerces both to
Number and adds.  The closed conjuncts are the concatenation examples of
`src/CPP/test.cpp`. -/
theorem plus_concatenation_semantics :
    (∀ (v w : Value), (v.isString || w.isString) = true →
      applyBinary .add v w = .ok (.str (v.asString ++ w.asString))) ∧
    (∀ (v w : Value) (a b : Number), v.isString = false → w.isString = false →
      v.asNumber = .ok a → w.asNumber = .ok b →
      applyBinary .add v w = .ok (.num (a.add b))) ∧
    (∀ (n : ℕ), Value.asString (.num (Number.fromInt (n : ℤ))) = Nat.repr n ++ ".000000") ∧
    Value.asString (.bool true) = "true" ∧
    Value.asString (.bool false) = "false" ∧
    Expression.Eval "\"value: \" + 42" none = .ok (.str "value: 42.000000") ∧
    Expression.Eval "123 + \" is the number\"" none = .ok (.str "123.000000 is the number") ∧
    Expression.Eval "\"status: \" + true" none = .ok (.str "status: true") ∧
    Expression.Eval "false + \" value\"" none = .ok (.str "false value") := by
  refine ⟨?_, ?_, asString_natCast_format, rfl, rfl, rfl, rfl, rfl, rfl⟩
  · intro v w h
    simp only [applyBinary, h]
    simp
  · intro v w a b hv hw ha hb
    simp only [applyBinary, hv, hw, Bool.or_self, Bool.false_eq_true, if_neg, ha, hb,
      exceptBind_ok]
    simp

/-- Witness for C5: the theorem's universal parts applied at
`"value: " + 42` (string present) and `1 + true` (no string: numeric
addition after coercion), and the formatting equation at 42. -/
theorem plus_concatenation_semantics_witness :
    applyBinary .add (.str "value: ") (.num 42) =
      .ok (.str (Value.asString (.str "value: ") ++ Value.asString (.num 42))) ∧
    applyBinary .add (.num 1) (.bool true) = .ok (.num ((1 : Number).add 1)) ∧
    Value.asString (.num (Number.fromInt ((42 : ℕ) : ℤ))) = Nat.repr 42 ++ ".000000" :=
  ⟨plus_concatenation_semantics.1 (.str "value: ") (.num 42) rfl,
   plus_concatenation_semantics.2.1 (.num 1) (.bool true) 1 1 rfl rfl rfl rfl,
   plus_concatenation_semantics.2.2.1 42⟩

/-! ## C6 — standard-library matching and domain errors -/

/-- A successful Number extraction preserves the argument count. -/
theorem numArgs_length (args : List Value) (nums : List Number)
    (h : numArgs args = some nums) : nums.length = args.length := by
  induction args generalizing nums with
  | nil => simp [numArgs] at h; simp [← h]
  | cons a rest ih =>
    cases a with
    | num n =>
      simp only [numArgs] at h
      cases hr : numArgs rest with
      | none => rw [hr] at h; simp at h
      | some ns => rw [hr] at h; simp at h; simp [← h, ih ns hr]
    | bool b => simp [numArgs] at h
    | str s => simp [numArgs] at h

/-- A non-Number argument anywhere in the list defeats the extraction. -/
theorem numArgs_eq_none (args : List Value) (v : Value)
    (hmem : v ∈ args) (hv : v.isNumber = false) : numArgs args = none := by
  induction args with
  | nil => cases hmem
  | cons a rest ih =>
    rcases List.mem_cons.mp hmem with rfl | hmem2
    · cases v with
      | num n => simp [Value.isNumber] at hv
      | bool b => rfl
      | str s => rfl
    · cases a with
      | num n => simp [numArgs, ih hmem2]
      | bool b => rfl
      | str s => rfl

/-- **C6.** `CallStandardFunctions` returns `matched = false` (`none`), with
no error, for every name outside the standard table, for every known name
applied to the wrong number of arguments, and whenever any argument is not
Number-tagged; whereas a *matched* call whose Number argument violates the
function's domain (`sqrt` of a negative, `log` of a non-positive) raises a
RuntimeError instead of returning `matched = false`. -/
theorem std_function_gating :
    (∀ (name : String) (args : List Value), name ∉ stdFunctionNames →
      Expression.CallStandardFunctions name args = none) ∧
    (∀ (name : String) (args : List Value), name ∈ oneArgNames → args.length ≠ 1 →
      Expression.CallStandardFunctions name args = none) ∧
    (∀ (name : String) (args : List Value), name ∈ twoArgNames → args.length ≠ 2 →
      Expression.CallStandardFunctions name args = none) ∧
    (∀ (name : String) (args : List Value) (v : Value), v ∈ args → v.isNumber = false →
      Expression.CallStandardFunctions name args = none) ∧
    Expression.CallStandardFunctions "sqrt" [.bool true] = none ∧
    Expression.CallStandardFunctions "sqrt" [.num (Number.fromInt (-1))] =
      some (.error (.runtimeError "sqrt of negative number")) ∧
    Expression.CallStandardFunctions "log" [.num 0] =
      some (.error (.runtimeError "log of non-positive number")) ∧
    Expression.CallStandardFunctions "log" [.num (Number.fromInt (-1))] =
      some (.error (.runtimeError "log of non-positive number")) := by
  refine ⟨?_, ?_, ?_, ?_, rfl, rfl, rfl, rfl⟩
  · intro name args h
    have h1 : name ∉ oneArgNames := fun hm =>
      h (by simp only [stdFunctionNames, List.mem_append]; exact Or.inl hm)
    have h2 : name ∉ twoArgNames := fun hm =>
      h (by simp only [stdFunctionNames, List.mem_append]; exact Or.inr hm)
    unfold Expression.CallStandardFunctions
    cases numArgs args with
    | none => rfl
    | some nums => simp only [if_neg h1, if_neg h2]
  · intro name args h hlen
    have h2 : name ∉ twoArgNames := by
      fin_cases h <;> decide
    unfold Expression.CallStandardFunctions
    cases hn : numArgs args with
    | none => rfl
    | some nums =>
      have hl : nums.length = args.length := numArgs_length args nums hn
      cases nums with
      | nil => simp only [if_pos h]
      | cons x xs =>
        cases xs with
        | nil => exact absurd (by simp at hl; omega) hlen
        | cons y ys => simp only [if_pos h]
  · intro name args h hlen
    have h1 : name ∉ oneArgNames := by
      fin_cases h <;> decide
    unfold Expression.CallStandardFunctions
    cases hn : numArgs args with
    | none => rfl
    | some nums =>
      have hl : nums.length = args.length := numArgs_length args nums hn
      cases nums with
      | nil => simp only [if_neg h1, if_pos h]
      | cons x xs =>
        cases xs with
        | nil => simp only [if_neg h1, if_pos h]
        | cons y ys =>
          cases ys with
          | nil => exact absurd (by simp at hl; omega) hlen
          | cons z zs => simp only [if_neg h1, if_pos h]
  · intro name args v hmem hv
    unfold Expression.CallStandardFunctions
    rw [numArgs_eq_none args v hmem hv]

/-- Witness for C6: the gating theorems applied at an unknown name, at `sqrt`
with three arguments, at `min` with one argument, and at `sqrt` of a
Boolean. -/
theorem std_function_gating_witness :
    Expression.CallStandardFunctions "nonexistent" [.num 1] = none ∧
    Expression.CallStandardFunctions "sqrt" [.num 1, .num 2, .num 3] = none ∧
    Expression.CallStandardFunctions "min" [.num 1] = none ∧
    Expression.CallStandardFunctions "max" [.bool true, .num 1] = none :=
  ⟨std_function_gating.1 "nonexistent" [.num 1] (by decide),
   std_function_gating.2.1 "sqrt" [.num 1, .num 2, .num 3] (by decide) (by decide),
   std_function_gating.2.2.1 "min" [.num 1] (by decide) (by decide),
   std_function_gating.2.2.2.1 "max" [.bool true, .num 1] (.bool true)
     (List.mem_cons_self _ _) rfl⟩

/-! ## C9 — bridge error reporting -/

/-- **C9, counterexample.**  The claim says the three error kinds are
distinguished at the C boundary, with type errors reported as
`ExprErrorTypeError`.  But on `"\"hello\" > 42"` the core raises a TypeError,
and `expr_evaluate` — whose single `catch (ExprException)` handler stores
`ExprErrorRuntimeError` (ExpressionKitBridge.cpp, line 206) — records
`ExprErrorRuntimeError`, which is not `ExprErrorTypeError`. -/
theorem bridge_type_error_code_counterexample :
    Expression.Eval "\"hello\" > 42" none =
      .error (.typeError "Cannot compare values of different types") ∧
    (Bridge.expr_evaluate (some "\"hello\" > 42") none).2.lastError =
      Bridge.ExprErrorCode.runtimeError ∧
    Bridge.ExprErrorCode.runtimeError ≠ Bridge.ExprErrorCode.typeError :=
  ⟨rfl, rfl, fun h => Bridge.ExprErrorCode.noConfusion h⟩

/-- **C9, amended.**  Every failing `expr_parse` / `expr_evaluate` /
`expr_evaluate_ast` call stores a numeric error code plus the exception's
message in the thread-local last-error slot, retrievable afterwards; but only
two of the three kinds are distinguished: `expr_parse` stores
`ExprErrorParseError`, while `expr_evaluate` and `expr_evaluate_ast` store
`ExprErrorRuntimeError` for *every* failure — type errors and runtime errors
alike (and even parse failures of the embedded expression) —  so
`ExprErrorTypeError` is never stored. -/
theorem bridge_error_reporting :
    (∀ (s : String) (e : ExprError), Expression.Parse s = .error e →
      Bridge.expr_parse (some s) = (none, ⟨.parseError, e.msg⟩)) ∧
    (∀ (s : String) (env : Option IEnvironment) (e : ExprError),
      Expression.Eval s env = .error e →
      Bridge.expr_evaluate (some s) env = (Bridge.invalidResult, ⟨.runtimeError, e.msg⟩)) ∧
    (∀ (a : Ast) (env : Option IEnvironment) (e : ExprError),
      evaluate a env = .error e →
      Bridge.expr_evaluate_ast (some a) env =
        (Bridge.invalidResult, ⟨.runtimeError, e.msg⟩)) ∧
    Bridge.expr_parse none = (none, ⟨.parseError, "Expression string is null"⟩) ∧
    (∀ (env : Option IEnvironment),
      Bridge.expr_evaluate none env =
        (Bridge.invalidResult, ⟨.parseError, "Expression string is null"⟩)) ∧
    (∀ (env : Option IEnvironment),
      Bridge.expr_evaluate_ast none env =
        (Bridge.invalidResult, ⟨.runtimeError, "AST handle is null"⟩)) := by
  refine ⟨?_, ?_, ?_, rfl, fun env => rfl, fun env => rfl⟩
  · intro s e h
    simp [Bridge.expr_parse, h]
  · intro s env e h
    simp [Bridge.expr_evaluate, h]
  · intro a env e h
    simp [Bridge.expr_evaluate_ast, h]

/-- Witness for C9 (amended): the reporting theorems applied at concrete
failing inputs — the empty expression for `expr_parse`, `1 / 0` for
`expr_evaluate`, an undefined variable with no environment for
`expr_evaluate_ast`. -/
theorem bridge_error_reporting_witness :
    Bridge.expr_parse (some "") =
      (none, ⟨.parseError, "Unexpected end of expression"⟩) ∧
    Bridge.expr_evaluate (some "1 / 0") none =
      (Bridge.invalidResult, ⟨.runtimeError, "Division by zero"⟩) ∧
    Bridge.expr_evaluate_ast (some (.variableRef "x")) none =
      (Bridge.invalidResult, ⟨.runtimeError, "no environment"⟩) :=
  ⟨bridge_error_reporting.1 "" (.parseError "Unexpected end of expression") rfl,
   bridge_error_reporting.2.1 "1 / 0" none (.runtimeError "Division by zero") rfl,
   bridge_error_reporting.2.2.1 (.variableRef "x") none
     (.runtimeError "no environment") rfl⟩

/-! ## C10 — string values never cross the callback boundary -/

/-- **C10.** In the bridge's value conversion, every `ExprValue` whose type is
not `ExprValueTypeNumber` — the String type included — is turned by
`convertFromCValue` into a Boolean `Value` built from the boolean payload
(whatever the `string` field holds), and `convertToCValue` copies only the
number or boolean payload, never setting the `string` field.  Consequently a
String-tagged value is never transported across the callback boundary: a
round trip through `convertToCValue` then `convertFromCValue` yields a
non-String value, and a string-typed value produced by a `getVariable`
callback reaches the evaluator as a Boolean. -/
theorem bridge_string_values_dropped :
    (∀ (c : Bridge.ExprValue), c.type ≠ .number →
      Bridge.convertFromCValue c = .bool c.boolean) ∧
    (∀ (c : Bridge.ExprValue) (so : Option String),
      Bridge.convertFromCValue { c with string := so } = Bridge.convertFromCValue c) ∧
    (∀ (v : Value), (Bridge.convertToCValue v).string = none) ∧
    (∀ (s : String),
      (Bridge.convertToCValue (.str s)).type = .stringType ∧
      (Bridge.convertFromCValue (Bridge.convertToCValue (.str s))).isString = false) ∧
    (∀ (getVariable : Bridge.GetVariableCallback)
       (callFunction : Bridge.CallFunctionCallback)
       (name : String) (c : Bridge.ExprValue),
      getVariable name = (c, .noError) → c.type = .stringType →
      (Bridge.CallbackEnvironment getVariable callFunction).Get name =
        .ok (.bool c.boolean)) := by
  refine ⟨?_, ?_, ?_, ?_, ?_⟩
  · intro c h
    simp [Bridge.convertFromCValue, h]
  · intro c so
    simp [Bridge.convertFromCValue]
  · intro v
    cases v <;> rfl
  · intro s
    exact ⟨rfl, rfl⟩
  · intro getVariable callFunction name c h hc
    simp only [Bridge.CallbackEnvironment, h]
    simp [Bridge.convertFromCValue, hc]

/-- Witness for C10: the conversion theorems applied at a concrete
string-typed C value carrying the payload `"payload"` — the value reaches the
core as `Value.bool true`, its string ignored. -/
theorem bridge_string_values_dropped_witness :
    Bridge.convertFromCValue ⟨.stringType, 0, true, some "payload"⟩ = .bool true ∧
    Bridge.convertFromCValue ⟨.stringType, 0, true, some "payload"⟩ =
      Bridge.convertFromCValue ⟨.stringType, 0, true, none⟩ ∧
    (Bridge.convertToCValue (.str "payload")).string = none ∧
    (Bridge.CallbackEnvironment
        (fun _ => (⟨.stringType, 0, true, some "payload"⟩, .noError))
        (fun _ _ => (Bridge.invalidResult, .noError))).Get "v" = .ok (.bool true) :=
  ⟨bridge_string_values_dropped.1 ⟨.stringType, 0, true, some "payload"⟩
      (fun h => Bridge.ExprValueType.noConfusion h),
   bridge_string_values_dropped.2.1 ⟨.stringType, 0, true, none⟩ (some "payload"),
   bridge_string_values_dropped.2.2.1 (.str "payload"),
   bridge_string_values_dropped.2.2.2.2
     (fun _ => (⟨.stringType, 0, true, some "payload"⟩, .noError))
     (fun _ _ => (Bridge.invalidResult, .noError)) "v"
     ⟨.stringType, 0, true, some "payload"⟩ rfl rfl⟩

end ExpressionKit
